import Mathlib

/-!
Verification of the branch-selection-and-deletion workflow of
`git-delete-branch` (src/main.go).

The program shells out to `git` and `fzf`; we embed the run as a pure
function of an environment that records the results of those external
invocations (exit status and captured output), and the pure string
transforms exactly as the source computes them.

Go string primitives used by the source are modelled on `List Char`:
`strings.TrimSpace`, `strings.TrimPrefix`, `strings.Split` (with the
one-character separator "\n", the only separator the source uses).
`unicode.IsSpace` is modelled over the Latin-1 range, which covers every
character the source can feed it (git branch names and command output
markers are ASCII).
-/

namespace GitDeleteBranch

/-- Go `unicode.IsSpace`, restricted to the Latin-1 range (the source only
trims ASCII markers and line endings). -/
def isSpace (c : Char) : Bool :=
  c == ' ' || c == '\t' || c == '\n' || c == '\x0b' || c == '\x0c' || c == '\r' ||
  c == '\x85' || c == '\xa0'

/-- Boolean prefix test on character lists (Go `strings.HasPrefix`, used
inside `strings.TrimPrefix`). -/
def hasPre : List Char → List Char → Bool
  | [], _ => true
  | _ :: _, [] => false
  | a :: as, b :: bs => a == b && hasPre as bs

/-- Go `strings.TrimSpace` on a character list: drop leading and trailing
whitespace. -/
def trimSL (l : List Char) : List Char :=
  ((l.dropWhile isSpace).reverse.dropWhile isSpace).reverse

/-- Go `strings.TrimSpace`. -/
def trimSpace (s : String) : String :=
  String.mk (trimSL s.data)

/-- Go `strings.TrimPrefix s pre`: remove `pre` from the front of `s` when
present, otherwise return `s` unchanged. -/
def trimPrefix (s pre : String) : String :=
  if hasPre pre.data s.data then String.mk (s.data.drop pre.data.length) else s

/-- Go `strings.Split(s, "\n")` on a character list: split at every newline;
the empty input yields one empty field, matching Go. -/
def splitLinesL : List Char → List (List Char)
  | [] => [[]]
  | c :: cs =>
    if c = '\n' then [] :: splitLinesL cs
    else
      match splitLinesL cs with
      | [] => [[c]]
      | h :: t => (c :: h) :: t

/-- Go `strings.Split(s, "\n")`. -/
def splitLines (s : String) : List String :=
  (splitLinesL s.data).map String.mk

/-- src/main.go line 242: the transform recovering a bare branch name from a
decorated `git branch` candidate line:
`strings.TrimSpace(strings.TrimPrefix(branch, "* "))`. -/
def strip (s : String) : String :=
  trimSpace (trimPrefix s "* ")

/-- src/main.go lines 239-246: split the `git branch` output into lines,
strip the selection marker and whitespace from each, and keep the non-empty
names that differ from the current branch. -/
def cleanList (output currentBranch : String) : List String :=
  ((splitLines output).map strip).filter
    (fun b => b != "" && b != currentBranch)

/-- src/main.go lines 127-133: commit metadata of a selected branch. -/
structure BranchDetail where
  Name : String
  Hash : String
  Author : String
  Date : String
  Message : String
deriving DecidableEq, Repr

/-- src/main.go lines 135-154, `getBranchDetail`: the external `git log -1`
invocation is abstracted by its result, `Except Unit String` (`.error ()`
for a non-zero exit, `.ok output` for the captured output).  On success the
output is trimmed and split on newlines; fewer than four lines is an error,
otherwise the first four lines become Hash, Author, Date, Message (the Go
code indexes lines[0]..lines[3], which the length check keeps in range, so
`getD` with a default never falls back). -/
def getBranchDetail (branchName : String) (result : Except Unit String) :
    Except Unit BranchDetail :=
  match result with
  | .error _ => .error ()
  | .ok output =>
    let lines := splitLines (trimSpace output)
    if lines.length < 4 then .error ()
    else .ok ⟨branchName, lines.getD 0 "", lines.getD 1 "", lines.getD 2 "",
              lines.getD 3 ""⟩

/-- How the `fzf` subprocess can fail (src/main.go lines 283-293): a
non-zero exit with a known code (`exec.ExitError`), or any other error. -/
inductive FzfFailure where
  | exitCode (code : Nat)
  | other
deriving DecidableEq, Repr

/-- One `git branch -d <name>` subprocess invocation issued by the deletion
loop (src/main.go lines 358-360).  `args` records the exact argument list,
showing the non-forced `-d` flag. -/
structure DeleteInvocation where
  branch : String
  args : List String
deriving DecidableEq, Repr

/-- Results of all external invocations a single run can make, in the order
the source performs them.  Per-branch invocations (`git log`, `git branch
-d`) are functions from the branch name to the result. -/
structure Env where
  /-- `exec.LookPath("fzf")` succeeds (lines 208-213). -/
  fzfAvailable : Bool
  /-- `git rev-parse --abbrev-ref HEAD` (lines 216-225). -/
  currentBranchResult : Except Unit String
  /-- `git branch` (lines 228-237). -/
  branchListResult : Except Unit String
  /-- `os.Executable()` (lines 256-260). -/
  executableResult : Except Unit String
  /-- `fzfCmd.Run()` together with the captured stdout (lines 279-293). -/
  fzfResult : Except FzfFailure String
  /-- `git log -1 ... <branch>` per branch (line 136). -/
  detailResult : String → Except Unit String
  /-- The answer the user gives to the `survey.Confirm` prompt; `none` when
  no answer is entered (the prompt then falls back to its default). -/
  confirmAnswer : Option Bool
  /-- `git branch -d <branch>` per branch (lines 359-360). -/
  deleteResult : String → Except Unit String

/-- Observable outcome of a run: the process exit code, the localized
message identifiers printed (raw subprocess output and stderr diagnostics
are noted as `stderr:`-prefixed strings), whether the fzf selector
subprocess was run, and every `git branch -d` invocation issued. -/
structure RunResult where
  exitCode : Nat
  messages : List String
  fzfInvoked : Bool
  deleteInvocations : List DeleteInvocation
deriving DecidableEq, Repr

/-- src/main.go lines 344-349: the `survey.Confirm` prompt is declared with
`Default: false`. -/
def confirmDefault : Bool := false

/-- src/main.go lines 304-317: fetch details for each selected branch in
order; a per-branch failure prints `ErrorGettingBranchDetails` and
`continue`s, a success appends the detail record. -/
def detailPhase (detailResult : String → Except Unit String) :
    List String → List BranchDetail × List String
  | [] => ([], [])
  | b :: rest =>
    let p := detailPhase detailResult rest
    match getBranchDetail b (detailResult b) with
    | .error _ => (p.1, "ErrorGettingBranchDetails" :: p.2)
    | .ok d => (d :: p.1, p.2)

/-- src/main.go lines 358-376: for every branch of the confirmed selection,
run `git branch -d <branch>` once; report `ErrorDeletingBranch` or
`BranchDeletedSuccessfully` per branch and keep going either way. -/
def deleteLoop (deleteResult : String → Except Unit String) :
    List String → List DeleteInvocation × List String
  | [] => ([], [])
  | b :: rest =>
    let msg := match deleteResult b with
      | .error _ => "ErrorDeletingBranch"
      | .ok _ => "BranchDeletedSuccessfully"
    let p := deleteLoop deleteResult rest
    (⟨b, ["branch", "-d", b]⟩ :: p.1, msg :: p.2)

/-- src/main.go lines 304-376: the run from the detail-fetch stage on, with
`branchesToDelete` already split out of the fzf output. -/
def runDetailsOn (env : Env) (branchesToDelete : List String) : RunResult :=
  let dp := detailPhase env.detailResult branchesToDelete
  if dp.1 = [] then
    ⟨0, dp.2 ++ ["NoBranchesSelected"], true, []⟩
  else
    let confirm := env.confirmAnswer.getD confirmDefault
    if confirm then
      let dl := deleteLoop env.deleteResult branchesToDelete
      ⟨0, dp.2 ++ ["ConfirmDeletion"] ++ dl.2, true, dl.1⟩
    else
      ⟨0, dp.2 ++ ["ConfirmDeletion", "DeletionCancelled"], true, []⟩

/-- src/main.go lines 262-302: run fzf over the candidate list and
interpret its outcome.  Exit code 130 is user cancellation (`os.Exit(0)`
after `DeletionCancelled`); any other failure is fatal (`os.Exit(1)`).  A
successful run with a whitespace-only stdout is the empty selection. -/
def runSelectorOn (env : Env) : RunResult :=
  match env.fzfResult with
  | .error (.exitCode code) =>
    if code = 130 then ⟨0, ["DeletionCancelled"], true, []⟩
    else ⟨1, ["stderr:ErrorRunningFzf"], true, []⟩
  | .error .other => ⟨1, ["stderr:ErrorRunningFzf"], true, []⟩
  | .ok stdout =>
    let selected := trimSpace stdout
    if selected = "" then ⟨0, ["NoBranchesSelected"], true, []⟩
    else runDetailsOn env (splitLines selected)

/-- src/main.go lines 208-377, the whole workflow of `main` after flag and
locale handling: fzf availability check, current-branch query, branch
enumeration, candidate cleaning, then selector / details / confirmation /
deletion. -/
def run (env : Env) : RunResult :=
  if !env.fzfAvailable then
    ⟨1, ["FzfNotFound", "InstallFzf"], false, []⟩
  else
    match env.currentBranchResult with
    | .error _ => ⟨1, ["ErrorGettingCurrentBranch"], false, []⟩
    | .ok curRaw =>
      match env.branchListResult with
      | .error _ => ⟨1, ["ErrorRunningGitBranch"], false, []⟩
      | .ok output =>
        let cleanBranches := cleanList output (trimSpace curRaw)
        if cleanBranches = [] then
          ⟨0, ["NoBranchesToDelete"], false, []⟩
        else
          match env.executableResult with
          | .error _ => ⟨1, ["stderr:ErrorGettingExecutablePath"], false, []⟩
          | .ok _ => runSelectorOn env

/-- Merge status of a candidate branch relative to the current branch. -/
inductive MergeStatus where
  | merged
  | unmerged
deriving DecidableEq, Repr

/-- A candidate branch together with its merge-status tag. -/
structure BranchCandidate where
  name : String
  status : MergeStatus
deriving DecidableEq, Repr

/-- Modelled from the spec: the Merge-Status Annotator of spec §4.2 is
absent from src/main.go (no `git branch --merged` invocation exists in the
source); only the spec and the README's merged/unmerged markers describe
it.  Per the spec, the annotator intersects the candidate list with the
merged-branch listing; when that secondary query fails (`none`), it must
not abort: it tags every candidate unmerged and raises a non-fatal warning
flag.  Returns the annotated candidates and whether a warning was
surfaced. -/
def annotateCandidates (mergedResult : Option (List String))
    (candidates : List String) : List BranchCandidate × Bool :=
  match mergedResult with
  | none => (candidates.map (fun b => ⟨b, .unmerged⟩), true)
  | some merged =>
    (candidates.map
      (fun b => ⟨b, if merged.contains b then .merged else .unmerged⟩),
     false)

/-! ## Helper lemmas -/

/-- `trimSL` is idempotent: after one pass neither end of the list carries
whitespace, so a second pass changes nothing. -/
lemma trimSL_trimSL (l : List Char) : trimSL (trimSL l) = trimSL l := by
  unfold trimSL
  set p := isSpace with hp
  set A := l.dropWhile p with hA
  set D := A.reverse.dropWhile p with hDdef
  obtain ⟨t, ht⟩ := List.dropWhile_suffix (l := A.reverse) p
  have hAeq : A = D.reverse ++ t.reverse := by
    rw [← List.reverse_reverse A, ← ht, List.reverse_append, hDdef]
  have h1 : D.reverse.dropWhile p = D.reverse := by
    cases hrev : D.reverse with
    | nil => simp
    | cons b B2 =>
      have hidem : A.dropWhile p = A := by
        rw [hA]; exact List.dropWhile_idempotent p l
      have hb : p b = false := by
        by_contra hb2
        have hbt : p b = true := by simpa using hb2
        rw [hAeq, hrev, List.cons_append] at hidem
        rw [List.dropWhile_cons, if_pos hbt] at hidem
        have hlen := congrArg List.length hidem
        rw [List.length_cons] at hlen
        have hle : ((B2 ++ t.reverse).dropWhile p).length ≤ (B2 ++ t.reverse).length :=
          (List.dropWhile_suffix (l := B2 ++ t.reverse) p).sublist.length_le
        omega
      rw [List.dropWhile_cons, if_neg (by simp [hb])]
  rw [h1, List.reverse_reverse, hDdef, List.dropWhile_idempotent]

/-- `trimSpace` is idempotent. -/
lemma trimSpace_trimSpace (s : String) : trimSpace (trimSpace s) = trimSpace s := by
  unfold trimSpace
  exact congrArg String.mk (trimSL_trimSL s.data)

/-- The deletion loop issues exactly one non-forced `git branch -d`
invocation per branch of the selection, in order, whatever the per-branch
results are. -/
lemma deleteLoop_fst (res : String → Except Unit String) (bs : List String) :
    (deleteLoop res bs).1 =
      bs.map (fun b => (⟨b, ["branch", "-d", b]⟩ : DeleteInvocation)) := by
  induction bs with
  | nil => rfl
  | cons b rest ih => simp [deleteLoop, ih]

/-- The details collected by the detail-fetch loop are exactly the
successful per-branch lookups, in selection order: failed branches are
skipped and the loop continues past them. -/
lemma detailPhase_fst (res : String → Except Unit String) (bs : List String) :
    (detailPhase res bs).1 =
      bs.filterMap (fun b => (getBranchDetail b (res b)).toOption) := by
  induction bs with
  | nil => rfl
  | cons b rest ih =>
    cases h : getBranchDetail b (res b) with
    | error e => simp [detailPhase, h, ih, Except.toOption]
    | ok d => simp [detailPhase, h, ih, Except.toOption]

/-- When the confirmation gate resolves to "no", no branch of `run` issues
any delete invocation. -/
lemma run_no_confirm_no_deletes (e : Env)
    (hfalse : e.confirmAnswer.getD confirmDefault = false) :
    (run e).deleteInvocations = [] := by
  simp only [run, runSelectorOn, runDetailsOn]
  repeat' split
  all_goals simp_all

/-- No branch of `run` produces a delete invocation unless the confirmation
answer was an explicit yes. -/
lemma run_deletes_confirm (e : Env) (h : (run e).deleteInvocations ≠ []) :
    e.confirmAnswer = some true := by
  cases ho : e.confirmAnswer with
  | none => exact absurd (run_no_confirm_no_deletes e (by rw [ho]; rfl)) h
  | some b =>
    cases b with
    | true => rfl
    | false => exact absurd (run_no_confirm_no_deletes e (by rw [ho]; rfl)) h

/-- Reaching the selector: with fzf available, both git queries successful
and a non-empty candidate set, the run is the selector stage. -/
lemma run_eq_selector (env : Env) (cur out path : String)
    (hf : env.fzfAvailable = true)
    (hc : env.currentBranchResult = .ok cur)
    (hl : env.branchListResult = .ok out)
    (hcl : cleanList out (trimSpace cur) ≠ [])
    (he : env.executableResult = .ok path) :
    run env = runSelectorOn env := by
  unfold run
  rw [hf, hc, hl, he]
  simp [hcl]

/-- Reaching the detail stage: a successful fzf run with a non-empty
trimmed selection continues with the split selection. -/
lemma selector_eq_details (env : Env) (sel : String)
    (hs : env.fzfResult = .ok sel)
    (hsel : trimSpace sel ≠ "") :
    runSelectorOn env = runDetailsOn env (splitLines (trimSpace sel)) := by
  unfold runSelectorOn
  rw [hs]
  simp [hsel]

/-! ## Concrete environments used by the witnesses

`demoEnv` mirrors the spec's end-to-end scenario 1: `main` is checked out,
`feature-a` and `feature-b` exist, both get selected, `feature-b`'s detail
query and delete fail. -/

def demoEnv : Env where
  fzfAvailable := true
  currentBranchResult := .ok "main\n"
  branchListResult := .ok "* main\n  feature-a\n  feature-b\n"
  executableResult := .ok "/usr/local/bin/git-delete-branch"
  fzfResult := .ok "feature-a\nfeature-b\n"
  detailResult := fun b =>
    if b = "feature-b" then .error ()
    else .ok "0a1b2c3d\nAlice\nSat Oct 10 12:00:00 2026\nfix parser"
  confirmAnswer := some true
  deleteResult := fun b => if b = "feature-b" then .error () else .ok "Deleted"

/-- A variant of `demoEnv` where every detail query fails. -/
def allDetailsFailEnv : Env :=
  { demoEnv with detailResult := fun _ => .error () }

/-! ## Claims -/

/-- C1: every candidate produced by the branch lister from the
`git branch` output differs from the trimmed current-branch name — the
currently checked-out branch is never in the candidate set. -/
theorem lister_excludes_current_branch (output rawCur b : String)
    (hb : b ∈ cleanList output (trimSpace rawCur)) : b ≠ trimSpace rawCur := by
  unfold cleanList at hb
  have h2 := (List.mem_filter.mp hb).2
  simp at h2
  exact h2.2

/-- Witness for C1 at the scenario-1 branch listing. -/
theorem lister_excludes_current_branch_witness :
    "feature-a" ≠ trimSpace "main\n" :=
  lister_excludes_current_branch "* main\n  feature-a\n  feature-b\n" "main\n"
    "feature-a" (by decide)

/-- C8: when `git branch` exits non-zero (with fzf available and the
current-branch query successful), the run is fatal: exit code 1, the
localized `ErrorRunningGitBranch` message, no selector invocation and no
delete invocations. -/
theorem listing_failure_fatal (env : Env) (cur : String)
    (hf : env.fzfAvailable = true)
    (hc : env.currentBranchResult = .ok cur)
    (hl : env.branchListResult = .error ()) :
    run env = ⟨1, ["ErrorRunningGitBranch"], false, []⟩ := by
  simp [run, hf, hc, hl]

/-- Witness for C8. -/
theorem listing_failure_fatal_witness :
    run { demoEnv with branchListResult := .error () } =
      ⟨1, ["ErrorRunningGitBranch"], false, []⟩ :=
  listing_failure_fatal { demoEnv with branchListResult := .error () }
    "main\n" rfl rfl rfl

/-- C9: when the candidate set is empty after excluding the current branch,
the run prints `NoBranchesToDelete` and exits with code 0, without running
the selector subprocess and without any delete invocation. -/
theorem empty_candidates_benign (env : Env) (cur out : String)
    (hf : env.fzfAvailable = true)
    (hc : env.currentBranchResult = .ok cur)
    (hl : env.branchListResult = .ok out)
    (hempty : cleanList out (trimSpace cur) = []) :
    run env = ⟨0, ["NoBranchesToDelete"], false, []⟩ := by
  simp [run, hf, hc, hl, hempty]

/-- Witness for C9 at the scenario-2 listing, where `main` is the only
branch. -/
theorem empty_candidates_benign_witness :
    run { demoEnv with branchListResult := .ok "* main\n" } =
      ⟨0, ["NoBranchesToDelete"], false, []⟩ :=
  empty_candidates_benign { demoEnv with branchListResult := .ok "* main\n" }
    "main\n" "* main\n" rfl rfl rfl (by decide)

/-- C10: whenever the trimmed `git log` output splits into at least four
lines, `getBranchDetail` returns exactly the first, second, third and
fourth lines as Hash, Author, Date and Message together with the queried
branch name, ignoring every line beyond the fourth. -/
theorem detail_takes_first_four_lines (name output l0 l1 l2 l3 : String)
    (rest : List String)
    (h : splitLines (trimSpace output) = l0 :: l1 :: l2 :: l3 :: rest) :
    getBranchDetail name (.ok output) = .ok ⟨name, l0, l1, l2, l3⟩ := by
  simp [getBranchDetail, h]

/-- Witness for C10: a five-line output, whose fifth line is ignored. -/
theorem detail_takes_first_four_lines_witness :
    getBranchDetail "feature-a" (.ok "0a1b\nAlice\nSat Oct 10\nfix\nextra") =
      .ok ⟨"feature-a", "0a1b", "Alice", "Sat Oct 10", "fix"⟩ :=
  detail_takes_first_four_lines "feature-a" "0a1b\nAlice\nSat Oct 10\nfix\nextra"
    "0a1b" "Alice" "Sat Oct 10" "fix" ["extra"] (by decide)

/-- C6 (counterexample): the claim states `strip (strip x) = strip x` for
every string `x`, where `strip` is the source's candidate-cleaning
transform `TrimSpace(TrimPrefix(x, "* "))` (src/main.go line 242).  It
fails at `x = " * a"`: the leading space blocks the marker removal on the
first pass, so the first pass yields `"* a"` and the second `"a"`. -/
theorem strip_not_idempotent_cex : ¬ strip (strip " * a") = strip " * a" := by
  decide

/-- C6 (amended): `strip` is idempotent on every string whose once-stripped
form does not itself begin with the `"* "` selection marker (in particular
on every line `git branch` can emit, since branch names cannot contain the
marker). -/
theorem strip_idempotent_unless_marker (s : String)
    (h : hasPre "* ".data (strip s).data = false) :
    strip (strip s) = strip s := by
  have hpre : trimPrefix (strip s) "* " = strip s := by
    unfold trimPrefix
    rw [h]
    simp
  show trimSpace (trimPrefix (strip s) "* ") = strip s
  rw [hpre]
  exact trimSpace_trimSpace (trimPrefix s "* ")

/-- Witness for the amended C6 at a decorated candidate line. -/
theorem strip_idempotent_unless_marker_witness :
    strip (strip "  feature-a ") = strip "  feature-a " :=
  strip_idempotent_unless_marker "  feature-a " (by decide)

/-- C2: once the selection is confirmed, the deleter issues the non-forced
`git branch -d` invocation exactly once per branch of the full selection
(the fzf output split on newlines), in order — independent of the
per-branch detail results (branches whose detail fetch failed are still
deleted, as long as at least one detail succeeded so the gate is reached)
and independent of the per-branch delete results (a failed delete does not
stop the remaining invocations). -/
theorem deleter_covers_full_selection (env : Env) (cur out path sel : String)
    (hf : env.fzfAvailable = true)
    (hc : env.currentBranchResult = .ok cur)
    (hl : env.branchListResult = .ok out)
    (hcl : cleanList out (trimSpace cur) ≠ [])
    (he : env.executableResult = .ok path)
    (hs : env.fzfResult = .ok sel)
    (hsel : trimSpace sel ≠ "")
    (hdet : (detailPhase env.detailResult (splitLines (trimSpace sel))).1 ≠ [])
    (hyes : env.confirmAnswer = some true) :
    (run env).deleteInvocations =
      (splitLines (trimSpace sel)).map
        (fun b => (⟨b, ["branch", "-d", b]⟩ : DeleteInvocation)) := by
  rw [run_eq_selector env cur out path hf hc hl hcl he,
    selector_eq_details env sel hs hsel]
  unfold runDetailsOn
  simp [hdet, hyes, confirmDefault, deleteLoop_fst]

/-- Witness for C2 at scenario 1: `feature-b`'s detail fetch and delete both
fail, yet both branches get exactly one `-d` invocation. -/
theorem deleter_covers_full_selection_witness :
    (run demoEnv).deleteInvocations =
      [⟨"feature-a", ["branch", "-d", "feature-a"]⟩,
       ⟨"feature-b", ["branch", "-d", "feature-b"]⟩] :=
  deleter_covers_full_selection demoEnv "main\n"
    "* main\n  feature-a\n  feature-b\n" "/usr/local/bin/git-delete-branch"
    "feature-a\nfeature-b\n" rfl rfl rfl (by decide) rfl rfl (by decide)
    (by decide) rfl

/-- C3: the confirmation prompt's default answer is "no", declining it
(answering no, or not answering so the default applies) exits with code 0
and zero delete invocations, and no run whatsoever issues a delete
invocation unless the gate was answered with an explicit yes. -/
theorem confirmation_gate_guards_deletion (env : Env) (cur out path sel : String)
    (hf : env.fzfAvailable = true)
    (hc : env.currentBranchResult = .ok cur)
    (hl : env.branchListResult = .ok out)
    (hcl : cleanList out (trimSpace cur) ≠ [])
    (he : env.executableResult = .ok path)
    (hs : env.fzfResult = .ok sel)
    (hsel : trimSpace sel ≠ "")
    (hdet : (detailPhase env.detailResult (splitLines (trimSpace sel))).1 ≠ [])
    (hno : env.confirmAnswer = some false ∨ env.confirmAnswer = none) :
    confirmDefault = false ∧
    (run env).exitCode = 0 ∧
    (run env).deleteInvocations = [] ∧
    (∀ e : Env, (run e).deleteInvocations ≠ [] → e.confirmAnswer = some true) := by
  refine ⟨rfl, ?_, ?_, fun e h => run_deletes_confirm e h⟩ <;>
  · rw [run_eq_selector env cur out path hf hc hl hcl he,
      selector_eq_details env sel hs hsel]
    unfold runDetailsOn
    rcases hno with h | h <;> simp [hdet, h, confirmDefault]

/-- Witness for C3: scenario 3, the user answers "no". -/
theorem confirmation_gate_guards_deletion_witness :
    (run { demoEnv with confirmAnswer := some false }).exitCode = 0 ∧
    (run { demoEnv with confirmAnswer := some false }).deleteInvocations = [] :=
  ⟨(confirmation_gate_guards_deletion { demoEnv with confirmAnswer := some false }
      "main\n" "* main\n  feature-a\n  feature-b\n"
      "/usr/local/bin/git-delete-branch" "feature-a\nfeature-b\n"
      rfl rfl rfl (by decide) rfl rfl (by decide) (by decide) (Or.inl rfl)).2.1,
   (confirmation_gate_guards_deletion { demoEnv with confirmAnswer := some false }
      "main\n" "* main\n  feature-a\n  feature-b\n"
      "/usr/local/bin/git-delete-branch" "feature-a\nfeature-b\n"
      rfl rfl rfl (by decide) rfl rfl (by decide) (by decide) (Or.inl rfl)).2.2.1⟩

/-- C4: when the merge-status query fails, the annotator still produces
every candidate, in order, each tagged unmerged, and only raises its
non-fatal warning flag (the annotator is a total function — the run is not
aborted). -/
theorem annotator_degrades_gracefully (candidates : List String) :
    (annotateCandidates none candidates).1.map BranchCandidate.name = candidates ∧
    (∀ c ∈ (annotateCandidates none candidates).1,
      c.status = MergeStatus.unmerged) ∧
    (annotateCandidates none candidates).2 = true := by
  refine ⟨?_, ?_, rfl⟩
  · simp [annotateCandidates, List.map_map, Function.comp_def]
  · intro c hc
    simp [annotateCandidates] at hc
    obtain ⟨b, _, hbc⟩ := hc
    rw [← hbc]

/-- Witness for C4 at the scenario-1 candidate list. -/
theorem annotator_degrades_gracefully_witness :
    (annotateCandidates none ["feature-a", "feature-b"]).1.map
        BranchCandidate.name = ["feature-a", "feature-b"] ∧
    ((annotateCandidates none ["feature-a", "feature-b"]).1.getD 0
        ⟨"", .merged⟩).status = MergeStatus.unmerged :=
  ⟨(annotator_degrades_gracefully ["feature-a", "feature-b"]).1,
   (annotator_degrades_gracefully ["feature-a", "feature-b"]).2.1 _ (by decide)⟩

/-- C5: a detail query that exits non-zero, or whose trimmed output has
fewer than four lines, fails for that branch alone: the confirmation table
(the collected details) contains exactly the successful lookups, failed
branches being excluded while the loop continues, and when every selected
branch fails detail lookup the run exits with code 0, no delete
invocations, and the same message the empty-selection outcome prints. -/
theorem detail_failures_per_branch_non_fatal (env : Env) (cur out path sel : String)
    (hf : env.fzfAvailable = true)
    (hc : env.currentBranchResult = .ok cur)
    (hl : env.branchListResult = .ok out)
    (hcl : cleanList out (trimSpace cur) ≠ [])
    (he : env.executableResult = .ok path)
    (hs : env.fzfResult = .ok sel)
    (hsel : trimSpace sel ≠ "") :
    (∀ name : String, getBranchDetail name (.error ()) = .error ()) ∧
    (∀ name o : String, (splitLines (trimSpace o)).length < 4 →
      getBranchDetail name (.ok o) = .error ()) ∧
    (detailPhase env.detailResult (splitLines (trimSpace sel))).1 =
      (splitLines (trimSpace sel)).filterMap
        (fun b => (getBranchDetail b (env.detailResult b)).toOption) ∧
    ((∀ b ∈ splitLines (trimSpace sel),
        getBranchDetail b (env.detailResult b) = .error ()) →
      (run env).exitCode = 0 ∧
      (run env).deleteInvocations = [] ∧
      "NoBranchesSelected" ∈ (run env).messages) := by
  refine ⟨fun name => rfl, ?_, detailPhase_fst _ _, ?_⟩
  · intro name o hlt
    simp [getBranchDetail, hlt]
  · intro hall
    have hnil : (detailPhase env.detailResult (splitLines (trimSpace sel))).1 = [] := by
      rw [detailPhase_fst, List.filterMap_eq_nil_iff]
      intro b hb
      rw [hall b hb]
      rfl
    rw [run_eq_selector env cur out path hf hc hl hcl he,
      selector_eq_details env sel hs hsel]
    unfold runDetailsOn
    simp [hnil]

/-- Witness for C5 with every detail query failing. -/
theorem detail_failures_per_branch_non_fatal_witness :
    (run allDetailsFailEnv).exitCode = 0 ∧
    (run allDetailsFailEnv).deleteInvocations = [] ∧
    "NoBranchesSelected" ∈ (run allDetailsFailEnv).messages ∧
    getBranchDetail "feature-a" (.error ()) = .error () :=
  ⟨((detail_failures_per_branch_non_fatal allDetailsFailEnv "main\n"
      "* main\n  feature-a\n  feature-b\n" "/usr/local/bin/git-delete-branch"
      "feature-a\nfeature-b\n" rfl rfl rfl (by decide) rfl rfl
      (by decide)).2.2.2 (fun b hb => rfl)).1,
   ((detail_failures_per_branch_non_fatal allDetailsFailEnv "main\n"
      "* main\n  feature-a\n  feature-b\n" "/usr/local/bin/git-delete-branch"
      "feature-a\nfeature-b\n" rfl rfl rfl (by decide) rfl rfl
      (by decide)).2.2.2 (fun b hb => rfl)).2.1,
   ((detail_failures_per_branch_non_fatal allDetailsFailEnv "main\n"
      "* main\n  feature-a\n  feature-b\n" "/usr/local/bin/git-delete-branch"
      "feature-a\nfeature-b\n" rfl rfl rfl (by decide) rfl rfl
      (by decide)).2.2.2 (fun b hb => rfl)).2.2,
   (detail_failures_per_branch_non_fatal allDetailsFailEnv "main\n"
      "* main\n  feature-a\n  feature-b\n" "/usr/local/bin/git-delete-branch"
      "feature-a\nfeature-b\n" rfl rfl rfl (by decide) rfl rfl
      (by decide)).1 "feature-a"⟩

/-- C7: once the selector stage is reached, exit code 130 from fzf is user
cancellation — exit code 0, no deletions, the same (exit code, deletions)
outcome as an empty selection — while any other fzf exit code or failure is
fatal with exit code 1; and an unavailable fzf binary is fatal with exit
code 1 in every run. -/
theorem selector_cancellation_vs_failure (env : Env) (cur out path : String)
    (hf : env.fzfAvailable = true)
    (hc : env.currentBranchResult = .ok cur)
    (hl : env.branchListResult = .ok out)
    (hcl : cleanList out (trimSpace cur) ≠ [])
    (he : env.executableResult = .ok path) :
    (env.fzfResult = .error (.exitCode 130) →
      (run env).exitCode = 0 ∧ (run env).deleteInvocations = [] ∧
      (run env).exitCode = (run { env with fzfResult := .ok "" }).exitCode ∧
      (run env).deleteInvocations =
        (run { env with fzfResult := .ok "" }).deleteInvocations) ∧
    (∀ code : Nat, code ≠ 130 → env.fzfResult = .error (.exitCode code) →
      (run env).exitCode = 1 ∧ (run env).deleteInvocations = []) ∧
    (env.fzfResult = .error .other →
      (run env).exitCode = 1 ∧ (run env).deleteInvocations = []) ∧
    (∀ e : Env, e.fzfAvailable = false →
      (run e).exitCode = 1 ∧ (run e).deleteInvocations = []) := by
  have hempty : run { env with fzfResult := .ok "" } =
      ⟨0, ["NoBranchesSelected"], true, []⟩ := by
    rw [run_eq_selector { env with fzfResult := .ok "" } cur out path hf hc hl hcl he]
    simp [runSelectorOn, trimSpace, trimSL]
  refine ⟨?_, ?_, ?_, ?_⟩
  · intro h130
    rw [run_eq_selector env cur out path hf hc hl hcl he, hempty]
    simp [runSelectorOn, h130]
  · intro code hcode h
    rw [run_eq_selector env cur out path hf hc hl hcl he]
    simp [runSelectorOn, h, hcode]
  · intro h
    rw [run_eq_selector env cur out path hf hc hl hcl he]
    simp [runSelectorOn, h]
  · intro e hna
    simp [run, hna]

/-- Witness for C7 at a cancelled fzf run. -/
theorem selector_cancellation_vs_failure_witness :
    (run { demoEnv with fzfResult := .error (.exitCode 130) }).exitCode = 0 ∧
    (run { demoEnv with fzfResult := .error (.exitCode 130) }).deleteInvocations
      = [] :=
  ⟨((selector_cancellation_vs_failure
      { demoEnv with fzfResult := .error (.exitCode 130) } "main\n"
      "* main\n  feature-a\n  feature-b\n" "/usr/local/bin/git-delete-branch"
      rfl rfl rfl (by decide) rfl).1 rfl).1,
   ((selector_cancellation_vs_failure
      { demoEnv with fzfResult := .error (.exitCode 130) } "main\n"
      "* main\n  feature-a\n  feature-b\n" "/usr/local/bin/git-delete-branch"
      rfl rfl rfl (by decide) rfl).1 rfl).2.1⟩

end GitDeleteBranch
